import Mathlib

/-!
Shallow embedding of the signing pipeline of `src/signing.ts` from the
`sign-android-release` action.

The TypeScript code orchestrates external processes (zipalign, apksigner,
jarsigner, cp).  We model each external-process invocation as a `Cmd`
value (executable string and argument vector, exactly as handed to
`exec.exec`) and each pipeline function as a pure function that returns
its result together with the list of commands it would spawn, in order.
Failures thrown before any process is spawned are modelled with `Except`.

JavaScript-specific semantics captured here:
* `String.prototype.replace` with a string pattern replaces only the
  first occurrence (`jsReplaceFirst`);
* a `keyPassword ? ... : ...` conditional treats `undefined` and the
  empty string alike as falsy (`jsTruthyStr`);
* `a || b` falls through on the empty string (version resolution).
-/

/-- The characters of the pattern string `.apk` used by the filename
substitutions in `signing.ts`. -/
def apkPat : List Char := ['.', 'a', 'p', 'k']

/-- JavaScript `String.prototype.replace` with a plain-string pattern,
on character lists: replace the first occurrence of `pat` in `s` by
`repl`; if `pat` does not occur, return `s` unchanged. -/
def jsReplaceFirstList (s pat repl : List Char) : List Char :=
  match s with
  | [] => bif pat.isPrefixOf ([] : List Char) then repl else []
  | c :: rest =>
    bif pat.isPrefixOf (c :: rest) then repl ++ (c :: rest).drop pat.length
    else c :: jsReplaceFirstList rest pat repl

/-- JavaScript `s.replace(pat, repl)` for plain-string `pat` (first
occurrence only), on `String`. -/
def jsReplaceFirst (s pat repl : String) : String :=
  ⟨jsReplaceFirstList s.data pat.data repl.data⟩

/-- JavaScript truthiness of a `string | undefined` value: `undefined`
and the empty string are falsy, every other string is truthy. -/
def jsTruthyStr : Option String → Bool
  | none => false
  | some s => !s.isEmpty

/-- One external-process invocation, as handed to `exec.exec`:
the executable string and the argument vector. -/
structure Cmd where
  exe : String
  args : List String
deriving DecidableEq

/-- The code interpolates every executable path into a quoted template
literal before calling `exec.exec`. -/
def quoteExe (s : String) : String := "\"" ++ s ++ "\""

/-- Models `path.join(a, b)` for the simple (already-normalized) segments
used by `signing.ts`: join with a single slash separator. -/
def pathJoin (a b : String) : String :=
  bif a.data.getLast? == some '/' then a ++ b else a ++ "/" ++ b

/-- The ambient configuration read by `getBuildToolsPath`:
the `buildToolsVersion` action input (`core.getInput` returns the empty
string when the input is unset), the `ANDROID_BUILD_TOOLS_VERSION` and
`ANDROID_HOME` environment variables (`undefined` when unset), and the
filesystem predicate behind `fs.existsSync`. -/
structure Env where
  buildToolsVersionInput : String
  androidBuildToolsVersionEnv : Option String
  androidHome : Option String
  fsExists : String → Bool

/-- The build-tools version fallback chain
`core.getInput('buildToolsVersion') || process.env.ANDROID_BUILD_TOOLS_VERSION || '35.0.0'`,
with JavaScript `||` (empty string is falsy). -/
def resolveBuildToolsVersion (env : Env) : String :=
  bif env.buildToolsVersionInput.isEmpty then
    match env.androidBuildToolsVersionEnv with
    | some v => bif v.isEmpty then "35.0.0" else v
    | none => "35.0.0"
  else env.buildToolsVersionInput

/-- `getBuildToolsPath` from `signing.ts`: resolve the version, require a
truthy `ANDROID_HOME`, build `<androidHome>/build-tools/<version>` and
require that directory to exist; throws (modelled as `Except.error`) the
exact message strings of the source otherwise. -/
def getBuildToolsPath (env : Env) : Except String String :=
  let buildToolsVersion := resolveBuildToolsVersion env
  match env.androidHome with
  | none => Except.error "ANDROID_HOME environment variable is not set."
  | some androidHome =>
    bif androidHome.isEmpty then
      Except.error "ANDROID_HOME environment variable is not set."
    else
      let buildToolsPath := pathJoin androidHome ("build-tools/" ++ buildToolsVersion)
      bif env.fsExists buildToolsPath then Except.ok buildToolsPath
      else Except.error ("Couldn't find the Android build tools @ " ++ buildToolsPath)

/-- `alignApkFile` from `signing.ts`: derive the `-aligned.apk` name by the
`.apk` substitution, run zipalign in check mode (`-c -v 4`) on the original
file, then copy the original file to the aligned name with `cp`.  Returns
the aligned file name and the two spawned commands, in order. -/
def alignApkFile (apkFile zipAlign : String) : String × List Cmd :=
  let alignedApkFile := jsReplaceFirst apkFile ".apk" "-aligned.apk"
  (alignedApkFile,
    [ ⟨quoteExe zipAlign, ["-c", "-v", "4", apkFile]⟩,
      ⟨quoteExe "cp", [apkFile, alignedApkFile]⟩ ])

/-- `signFile` from `signing.ts`: derive the signed name from
`originalFile` by the `.apk` → `fileExtension` substitution and invoke the
signer with `sign --ks ... --ks-key-alias ... --ks-pass pass:... --out
<signedFile> [--key-pass pass:<keyPassword>] <fileToSign>`; the
`--key-pass` pair is included only when `keyPassword` is truthy.  Returns
the signed file name and the spawned command. -/
def signFile (signerPath fileToSign signingKeyFile keyAlias keyStorePassword : String)
    (keyPassword : Option String) (originalFile fileExtension : String) : String × Cmd :=
  let signedFile := jsReplaceFirst originalFile ".apk" fileExtension
  let args :=
    ["sign",
     "--ks", signingKeyFile,
     "--ks-key-alias", keyAlias,
     "--ks-pass", "pass:" ++ keyStorePassword,
     "--out", signedFile]
    ++ (bif jsTruthyStr keyPassword then
          ["--key-pass", "pass:" ++ keyPassword.getD ""] else [])
    ++ [fileToSign]
  (signedFile, ⟨quoteExe signerPath, args⟩)

/-- `verifySignedFile` from `signing.ts`: `apksigner verify <signedFile>`. -/
def verifySignedFile (signerPath signedFile : String) : Cmd :=
  ⟨quoteExe signerPath, ["verify", signedFile]⟩

/-- `signApkFile` from `signing.ts`: resolve the build tools, align, sign
(with extension `-signed.apk`, derived from the original `apkFile`), then
verify.  Returns the signed file name (or the thrown error) together with
every command spawned, in order; a resolution failure spawns nothing. -/
def signApkFile (apkFile signingKeyFile keyAlias keyStorePassword : String)
    (keyPassword : Option String) (env : Env) : Except String String × List Cmd :=
  match getBuildToolsPath env with
  | Except.error e => (Except.error e, [])
  | Except.ok buildToolsPath =>
    let zipAlign := pathJoin buildToolsPath "zipalign"
    let aligned := alignApkFile apkFile zipAlign
    let apkSigner := pathJoin buildToolsPath "apksigner"
    let signed := signFile apkSigner aligned.1 signingKeyFile keyAlias keyStorePassword
      keyPassword apkFile "-signed.apk"
    (Except.ok signed.1, aligned.2 ++ [signed.2, verifySignedFile apkSigner signed.1])

/-- `signAabFile` from `signing.ts`: invoke jarsigner with
`-keystore ... -storepass ... [-keypass ...] <aabFile> <alias>` (the
`-keypass` pair only when `keyPassword` is truthy) and return the input
path unchanged, together with the spawned command. -/
def signAabFile (aabFile signingKeyFile keyAlias keyStorePassword : String)
    (keyPassword : Option String) (jarSignerPath : String) : String × Cmd :=
  let args :=
    ["-keystore", signingKeyFile,
     "-storepass", keyStorePassword]
    ++ (bif jsTruthyStr keyPassword then ["-keypass", keyPassword.getD ""] else [])
    ++ [aabFile, keyAlias]
  (aabFile, ⟨quoteExe jarSignerPath, args⟩)

/-! ### Lemmas about the first-occurrence replacement -/

theorem data_append (s t : String) : (s ++ t).data = s.data ++ t.data := rfl

theorem data_jsReplaceFirst (s pat repl : String) :
    (jsReplaceFirst s pat repl).data = jsReplaceFirstList s.data pat.data repl.data := rfl

theorem apk_data : (".apk" : String).data = apkPat := rfl

/-- When the pattern does not occur in the input, the JavaScript
replacement is the identity. -/
theorem jsRFL_not_occurs (pat repl : List Char) :
    ∀ s : List Char, ¬ (pat <:+: s) → jsReplaceFirstList s pat repl = s := by
  intro s
  induction s with
  | nil =>
    intro h
    have hp : pat.isPrefixOf ([] : List Char) = false := by
      cases hb : pat.isPrefixOf ([] : List Char)
      · rfl
      · exact absurd ( List.IsPrefix.isInfix ( List.isPrefixOf_iff_prefix.mp hb)) h
    simp [jsReplaceFirstList, hp]
  | cons c rest ih =>
    intro h
    have hp : pat.isPrefixOf (c :: rest) = false := by
      cases hb : pat.isPrefixOf (c :: rest)
      · rfl
      · exact absurd ( List.IsPrefix.isInfix ( List.isPrefixOf_iff_prefix.mp hb)) h
    have hrest : ¬ (pat <:+: rest) := fun hr =>
      h (hr.trans ( List.IsSuffix.isInfix (List.suffix_cons c rest)))
    simp [jsReplaceFirstList, hp, ih hrest]

/-- When `.apk` does not occur inside `u` (nor overlapping the boundary,
which the hypothesis rules out via the proper prefix `.ap`), the
replacement in `u ++ ".apk" ++ t` rewrites exactly that occurrence. -/
theorem jsRFL_first_apk (repl t : List Char) :
    ∀ u : List Char, ¬ (apkPat <:+: (u ++ ['.', 'a', 'p'])) →
      jsReplaceFirstList (u ++ apkPat ++ t) apkPat repl = u ++ repl ++ t := by
  intro u
  induction u with
  | nil =>
    intro _h
    show jsReplaceFirstList ('.' :: (['a', 'p', 'k'] ++ t)) apkPat repl = [] ++ repl ++ t
    have hpre : apkPat.isPrefixOf ('.' :: (['a', 'p', 'k'] ++ t)) = true := by
      simp [apkPat, List.isPrefixOf]
    have hstep : jsReplaceFirstList ('.' :: (['a', 'p', 'k'] ++ t)) apkPat repl
        = cond (apkPat.isPrefixOf ('.' :: (['a', 'p', 'k'] ++ t)))
            (repl ++ ('.' :: (['a', 'p', 'k'] ++ t)).drop apkPat.length)
            ('.' :: jsReplaceFirstList (['a', 'p', 'k'] ++ t) apkPat repl) := rfl
    rw [hstep, hpre, cond_true]
    simp [apkPat]
  | cons c u' ih =>
    intro h
    have hp : apkPat.isPrefixOf (c :: (u' ++ (apkPat ++ t))) = false := by
      cases hb : apkPat.isPrefixOf (c :: (u' ++ (apkPat ++ t)))
      · rfl
      · exfalso
        have hpre : apkPat <+: ((c :: u') ++ (apkPat ++ t)) :=
          List.isPrefixOf_iff_prefix.mp hb
        have hlen : apkPat.length ≤ u'.length + 4 := by simp [apkPat]
        have htk : apkPat <+: (((c :: u') ++ (apkPat ++ t)).take (u'.length + 4)) :=
          ( List.prefix_take_iff).mpr ⟨hpre, hlen⟩
        have hTake : (((c :: u') ++ (apkPat ++ t)).take (u'.length + 4))
            = (c :: u') ++ ['.', 'a', 'p'] := by
          rw [ List.take_append_eq_append_take]
          have h1 : (c :: u').take (u'.length + 4) = c :: u' :=
            List.take_of_length_le (by simp only [List.length_cons]; omega)
          have h2 : u'.length + 4 - (c :: u').length = 3 := by
            simp only [List.length_cons]; omega
          rw [h1, h2, List.take_append_eq_append_take]
          simp [apkPat]
        rw [hTake] at htk
        exact h ( List.IsPrefix.isInfix htk)
    have hrest : ¬ (apkPat <:+: (u' ++ ['.', 'a', 'p'])) := fun hr =>
      h (hr.trans ( List.IsSuffix.isInfix (List.suffix_cons c _)))
    have ih' := ih hrest
    simp only [List.append_assoc] at ih' ⊢
    show jsReplaceFirstList (c :: (u' ++ (apkPat ++ t))) apkPat repl
      = c :: (u' ++ (repl ++ t))
    have hstep : jsReplaceFirstList (c :: (u' ++ (apkPat ++ t))) apkPat repl
        = cond (apkPat.isPrefixOf (c :: (u' ++ (apkPat ++ t))))
            (repl ++ (c :: (u' ++ (apkPat ++ t))).drop apkPat.length)
            (c :: jsReplaceFirstList (u' ++ (apkPat ++ t)) apkPat repl) := rfl
    rw [hstep, hp, cond_false, ih']

/-- Decomposition of an infix of an append: the occurrence lies in the
left part, in the right part, or spans the boundary with a nonempty
suffix of the left part glued to a nonempty prefix of the right part. -/
theorem infix_append_cases {α : Type} (p u v : List α) (h : p <:+: u ++ v) :
    p <:+: u ∨ p <:+: v ∨
      ∃ p₁ p₂, p = p₁ ++ p₂ ∧ p₁ <:+ u ∧ p₂ <+: v ∧ p₁ ≠ [] ∧ p₂ ≠ [] := by
  induction u with
  | nil =>
    right; left; simpa using h
  | cons c u' ih =>
    rcases List.infix_cons_iff.mp h with hpre | hrest
    · by_cases hlen : p.length ≤ (c :: u').length
      · left
        exact List.IsPrefix.isInfix
          (List.prefix_of_prefix_length_le hpre (List.prefix_append (c :: u') v) hlen)
      · push_neg at hlen
        have hcu : (c :: u') <+: p :=
          List.prefix_of_prefix_length_le (List.prefix_append (c :: u') v) hpre
            (le_of_lt hlen)
        obtain ⟨p₂, hp₂⟩ := hcu
        right; right
        refine ⟨c :: u', p₂, hp₂.symm, List.suffix_refl _, ?_, by simp, ?_⟩
        · obtain ⟨w, hw⟩ := hpre
          refine ⟨w, ?_⟩
          rw [← hp₂, List.append_assoc] at hw
          exact List.append_cancel_left hw
        · intro he
          rw [he, List.append_nil] at hp₂
          have hl := congrArg List.length hp₂
          simp only [List.length_cons] at hl hlen
          omega
    · rcases ih hrest with h1 | h2 | ⟨p₁, p₂, he, hs, hpr, hn1, hn2⟩
      · left
        exact h1.trans ( List.IsSuffix.isInfix (List.suffix_cons c u'))
      · right; left; exact h2
      · right; right
        exact ⟨p₁, p₂, he, hs.trans (List.suffix_cons c u'), hpr, hn1, hn2⟩

/-- String-level version of `jsRFL_first_apk`, with a trailing part. -/
theorem jsReplaceFirst_apk_mid (s t repl : String)
    (h : ¬ (apkPat <:+: (s.data ++ ['.', 'a', 'p']))) :
    jsReplaceFirst (s ++ ".apk" ++ t) ".apk" repl = s ++ repl ++ t := by
  apply String.ext
  rw [data_jsReplaceFirst, data_append, data_append, apk_data,
    data_append, data_append]
  exact jsRFL_first_apk repl.data t.data s.data h

/-- String-level version of `jsRFL_first_apk` for a final extension. -/
theorem jsReplaceFirst_apk_end (s repl : String)
    (h : ¬ (apkPat <:+: (s.data ++ ['.', 'a', 'p']))) :
    jsReplaceFirst (s ++ ".apk") ".apk" repl = s ++ repl := by
  have hm := jsReplaceFirst_apk_mid s "" repl h
  simpa using hm

/-- String-level version of `jsRFL_not_occurs`. -/
theorem jsReplaceFirst_no_apk (s repl : String) (h : ¬ (apkPat <:+: s.data)) :
    jsReplaceFirst s ".apk" repl = s := by
  apply String.ext
  rw [data_jsReplaceFirst, apk_data]
  exact jsRFL_not_occurs apkPat repl.data s.data h

/-- The characters of the `-aligned` marker. -/
def alignedPat : List Char := ['-', 'a', 'l', 'i', 'g', 'n', 'e', 'd']

/-- Appending the `-signed.apk` extension cannot create an occurrence of
the `-aligned` marker. -/
theorem aligned_not_in_append_signed (s : List Char) (h : ¬ (alignedPat <:+: s)) :
    ¬ (alignedPat <:+: (s ++ ("-signed.apk" : String).data)) := by
  intro hc
  rcases infix_append_cases alignedPat s (("-signed.apk" : String).data) hc with
    h1 | h2 | ⟨p₁, p₂, he, _hs, hpr, _hn1, hn2⟩
  · exact h h1
  · exact absurd h2 (by decide)
  · have hsuf : p₂ <:+ alignedPat := ⟨p₁, he.symm⟩
    have hmem : p₂ ∈ List.tails alignedPat := (List.mem_tails _ _).mpr hsuf
    have hfact : ∀ q ∈ List.tails alignedPat,
        q <+: (("-signed.apk" : String).data) → q = [] := by decide
    exact hn2 (hfact p₂ hmem hpr)

/-! ### Concrete environments used by the witnesses -/

/-- An environment where tool resolution succeeds. -/
def envOk : Env :=
  { buildToolsVersionInput := "", androidBuildToolsVersionEnv := none,
    androidHome := some "/sdk", fsExists := fun _ => true }

/-- An environment with `ANDROID_HOME` unset. -/
def envNoHome : Env :=
  { buildToolsVersionInput := "", androidBuildToolsVersionEnv := none,
    androidHome := none, fsExists := fun _ => true }

/-- An environment where no build-tools directory exists on disk. -/
def envNoDir : Env :=
  { buildToolsVersionInput := "", androidBuildToolsVersionEnv := none,
    androidHome := some "/sdk", fsExists := fun _ => false }

theorem envOk_resolves : getBuildToolsPath envOk = Except.ok "/sdk/build-tools/35.0.0" := rfl

/-! ### Claim theorems -/

/-- C3: the align stage never invokes zipalign's actual alignment mode:
for every APK input it spawns exactly two commands, first zipalign in
check mode with arguments `-c -v 4 <file>` on the original file, then a
`cp` of the original file to the `-aligned.apk` name (verify-then-copy,
not verify-then-align). -/
theorem align_is_verify_then_copy (apkFile zipAlign : String) :
    alignApkFile apkFile zipAlign
      = (jsReplaceFirst apkFile ".apk" "-aligned.apk",
         [ ⟨quoteExe zipAlign, ["-c", "-v", "4", apkFile]⟩,
           ⟨quoteExe "cp", [apkFile, jsReplaceFirst apkFile ".apk" "-aligned.apk"]⟩ ]) := rfl

/-- C6: signAabFile returns exactly the path it was given; no renaming
and no derived output name is produced for the AAB pipeline. -/
theorem signAabFile_returns_input (aabFile signingKeyFile keyAlias keyStorePassword : String)
    (keyPassword : Option String) (jarSignerPath : String) :
    (signAabFile aabFile signingKeyFile keyAlias keyStorePassword keyPassword jarSignerPath).1
      = aabFile := rfl

/-- C7: with `ANDROID_HOME` unset, tool resolution fails with the
configuration error, and the APK pipeline fails with that same error
while spawning no external process at all (empty command trace). -/
theorem no_android_home_fails_before_spawn
    (apkFile signingKeyFile keyAlias keyStorePassword : String)
    (keyPassword : Option String) (env : Env) (h : env.androidHome = none) :
    getBuildToolsPath env = Except.error "ANDROID_HOME environment variable is not set."
    ∧ signApkFile apkFile signingKeyFile keyAlias keyStorePassword keyPassword env
      = (Except.error "ANDROID_HOME environment variable is not set.", []) := by
  have hg : getBuildToolsPath env
      = Except.error "ANDROID_HOME environment variable is not set." := by
    simp [getBuildToolsPath, h]
  exact ⟨hg, by simp [signApkFile, hg]⟩

theorem no_android_home_fails_before_spawn_witness :
    getBuildToolsPath envNoHome
      = Except.error "ANDROID_HOME environment variable is not set."
    ∧ signApkFile "app.apk" "key.jks" "alias0" "pw" none envNoHome
      = (Except.error "ANDROID_HOME environment variable is not set.", []) :=
  no_android_home_fails_before_spawn "app.apk" "key.jks" "alias0" "pw" none envNoHome rfl

/-- C8: when the build-tools directory for the resolved version does not
exist on disk, tool resolution fails and the error message contains the
expected directory path `<sdkRoot>/build-tools/<version>`. -/
theorem missing_build_tools_error_names_path (env : Env) (androidHome : String)
    (h1 : env.androidHome = some androidHome) (h2 : androidHome.isEmpty = false)
    (h3 : env.fsExists
        (pathJoin androidHome ("build-tools/" ++ resolveBuildToolsVersion env)) = false) :
    getBuildToolsPath env
      = Except.error ("Couldn't find the Android build tools @ "
          ++ pathJoin androidHome ("build-tools/" ++ resolveBuildToolsVersion env))
    ∧ (pathJoin androidHome ("build-tools/" ++ resolveBuildToolsVersion env)).data
        <:+: ("Couldn't find the Android build tools @ "
          ++ pathJoin androidHome ("build-tools/" ++ resolveBuildToolsVersion env)).data := by
  constructor
  · simp [getBuildToolsPath, h1, h2, h3]
  · rw [data_append]
    exact List.IsSuffix.isInfix (List.suffix_append _ _)

theorem missing_build_tools_error_names_path_witness :
    getBuildToolsPath envNoDir
      = Except.error ("Couldn't find the Android build tools @ "
          ++ pathJoin "/sdk" ("build-tools/" ++ resolveBuildToolsVersion envNoDir))
    ∧ (pathJoin "/sdk" ("build-tools/" ++ resolveBuildToolsVersion envNoDir)).data
        <:+: ("Couldn't find the Android build tools @ "
          ++ pathJoin "/sdk" ("build-tools/" ++ resolveBuildToolsVersion envNoDir)).data :=
  missing_build_tools_error_names_path envNoDir "/sdk" rfl rfl rfl

/-- C9: passing the empty string as keyPassword behaves exactly like
omitting it, for both the apksigner and the jarsigner invocation, and in
the omitted case the built argument lists carry no key-password flag pair
at all (presence is decided by JavaScript truthiness). -/
theorem empty_keypassword_like_omitted (signerPath fileToSign signingKeyFile keyAlias
    keyStorePassword originalFile fileExtension aabFile jarSignerPath : String) :
    signFile signerPath fileToSign signingKeyFile keyAlias keyStorePassword (some "")
        originalFile fileExtension
      = signFile signerPath fileToSign signingKeyFile keyAlias keyStorePassword none
        originalFile fileExtension
    ∧ signAabFile aabFile signingKeyFile keyAlias keyStorePassword (some "") jarSignerPath
      = signAabFile aabFile signingKeyFile keyAlias keyStorePassword none jarSignerPath
    ∧ (signFile signerPath fileToSign signingKeyFile keyAlias keyStorePassword none
        originalFile fileExtension).2.args
      = ["sign", "--ks", signingKeyFile, "--ks-key-alias", keyAlias,
         "--ks-pass", "pass:" ++ keyStorePassword,
         "--out", jsReplaceFirst originalFile ".apk" fileExtension, fileToSign]
    ∧ (signAabFile aabFile signingKeyFile keyAlias keyStorePassword none jarSignerPath).2.args
      = ["-keystore", signingKeyFile, "-storepass", keyStorePassword, aabFile, keyAlias] := by
  refine ⟨rfl, rfl, by simp [signFile, jsTruthyStr], by simp [signAabFile, jsTruthyStr]⟩

/-- C1: for an input path `<s>.apk` whose only occurrence of `.apk` is
the final extension (which is what the hypothesis states), the align
stage produces `<s>-aligned.apk` and the full pipeline returns
`<s>-signed.apk` — the `.apk` → `-aligned.apk` / `-signed.apk`
substitutions — whatever intermediate directories `<s>` contains. -/
theorem apk_input_derived_names
    (s zipAlign signingKeyFile keyAlias keyStorePassword : String)
    (keyPassword : Option String) (env : Env) (btp : String)
    (henv : getBuildToolsPath env = Except.ok btp)
    (h : ¬ (apkPat <:+: (s.data ++ ['.', 'a', 'p']))) :
    (alignApkFile (s ++ ".apk") zipAlign).1 = s ++ "-aligned.apk"
    ∧ (signApkFile (s ++ ".apk") signingKeyFile keyAlias keyStorePassword keyPassword env).1
      = Except.ok (s ++ "-signed.apk") := by
  have ha : jsReplaceFirst (s ++ ".apk") ".apk" "-aligned.apk" = s ++ "-aligned.apk" :=
    jsReplaceFirst_apk_end s "-aligned.apk" h
  have hs : jsReplaceFirst (s ++ ".apk") ".apk" "-signed.apk" = s ++ "-signed.apk" :=
    jsReplaceFirst_apk_end s "-signed.apk" h
  refine ⟨ha, ?_⟩
  simp [signApkFile, henv, signFile, hs]

theorem apk_input_derived_names_witness :
    (alignApkFile ("foo" ++ ".apk") "/sdk/build-tools/35.0.0/zipalign").1
      = "foo" ++ "-aligned.apk"
    ∧ (signApkFile ("foo" ++ ".apk") "key.jks" "alias0" "pw" none envOk).1
      = Except.ok ("foo" ++ "-signed.apk") :=
  apk_input_derived_names "foo" "/sdk/build-tools/35.0.0/zipalign" "key.jks" "alias0" "pw"
    none envOk "/sdk/build-tools/35.0.0" rfl (by decide)

/-- C4: the signed output path is derived by the `-signed.apk`
substitution on the original input name: the pipeline result is that
substitution applied to the original file, the signed name returned by
signFile does not depend on the file actually handed over for signing
(the aligned file), and on a clean input `<s>.apk` the signed path
`<s>-signed.apk` never contains the aligned file's `-aligned` infix. -/
theorem signed_name_from_original
    (s signingKeyFile keyAlias keyStorePassword : String)
    (keyPassword : Option String) (env : Env) (btp : String)
    (henv : getBuildToolsPath env = Except.ok btp)
    (h1 : ¬ (apkPat <:+: (s.data ++ ['.', 'a', 'p'])))
    (h2 : ¬ (alignedPat <:+: s.data)) :
    (signApkFile (s ++ ".apk") signingKeyFile keyAlias keyStorePassword keyPassword env).1
      = Except.ok (jsReplaceFirst (s ++ ".apk") ".apk" "-signed.apk")
    ∧ (∀ fileToSign fileToSign' signerPath,
        (signFile signerPath fileToSign signingKeyFile keyAlias keyStorePassword keyPassword
            (s ++ ".apk") "-signed.apk").1
          = (signFile signerPath fileToSign' signingKeyFile keyAlias keyStorePassword
              keyPassword (s ++ ".apk") "-signed.apk").1)
    ∧ jsReplaceFirst (s ++ ".apk") ".apk" "-signed.apk" = s ++ "-signed.apk"
    ∧ ¬ (alignedPat <:+: (s ++ "-signed.apk").data) := by
  have hs : jsReplaceFirst (s ++ ".apk") ".apk" "-signed.apk" = s ++ "-signed.apk" :=
    jsReplaceFirst_apk_end s "-signed.apk" h1
  refine ⟨?_, fun _ _ _ => rfl, hs, ?_⟩
  · simp [signApkFile, henv, signFile]
  · rw [data_append]
    exact aligned_not_in_append_signed s.data h2

theorem signed_name_from_original_witness :
    (signApkFile ("release/foo" ++ ".apk") "key.jks" "alias0" "pw" none envOk).1
      = Except.ok (jsReplaceFirst ("release/foo" ++ ".apk") ".apk" "-signed.apk")
    ∧ (∀ fileToSign fileToSign' signerPath,
        (signFile signerPath fileToSign "key.jks" "alias0" "pw" none
            ("release/foo" ++ ".apk") "-signed.apk").1
          = (signFile signerPath fileToSign' "key.jks" "alias0" "pw" none
              ("release/foo" ++ ".apk") "-signed.apk").1)
    ∧ jsReplaceFirst ("release/foo" ++ ".apk") ".apk" "-signed.apk"
      = "release/foo" ++ "-signed.apk"
    ∧ ¬ (alignedPat <:+: ("release/foo" ++ "-signed.apk").data) :=
  signed_name_from_original "release/foo" "key.jks" "alias0" "pw" none envOk
    "/sdk/build-tools/35.0.0" rfl (by decide) (by decide)

/-- C10: the derivation replaces only the first occurrence of `.apk`: on
an input `<s>.apk<t>` whose first `.apk` occurrence closes the `<s>.apk`
part, the derived names are `<s>-aligned.apk<t>` and `<s>-signed.apk<t>`
(occurrences inside `<t>` untouched), and on an input `<u>` containing
no `.apk` at all both derivations are the identity. -/
theorem replace_first_occurrence_only
    (s t u zipAlign signerPath fileToSign signingKeyFile keyAlias keyStorePassword : String)
    (keyPassword : Option String)
    (h1 : ¬ (apkPat <:+: (s.data ++ ['.', 'a', 'p'])))
    (h2 : ¬ (apkPat <:+: u.data)) :
    (alignApkFile (s ++ ".apk" ++ t) zipAlign).1 = s ++ "-aligned.apk" ++ t
    ∧ (signFile signerPath fileToSign signingKeyFile keyAlias keyStorePassword keyPassword
        (s ++ ".apk" ++ t) "-signed.apk").1 = s ++ "-signed.apk" ++ t
    ∧ (alignApkFile u zipAlign).1 = u
    ∧ (signFile signerPath fileToSign signingKeyFile keyAlias keyStorePassword keyPassword
        u "-signed.apk").1 = u :=
  ⟨jsReplaceFirst_apk_mid s t "-aligned.apk" h1,
   jsReplaceFirst_apk_mid s t "-signed.apk" h1,
   jsReplaceFirst_no_apk u "-aligned.apk" h2,
   jsReplaceFirst_no_apk u "-signed.apk" h2⟩

theorem replace_first_occurrence_only_witness :
    (alignApkFile ("dir/a" ++ ".apk" ++ "/b.apk") "/z").1
      = "dir/a" ++ "-aligned.apk" ++ "/b.apk"
    ∧ (signFile "/s" "f" "k" "al" "pw" none ("dir/a" ++ ".apk" ++ "/b.apk") "-signed.apk").1
      = "dir/a" ++ "-signed.apk" ++ "/b.apk"
    ∧ (alignApkFile "bar.aab" "/z").1 = "bar.aab"
    ∧ (signFile "/s" "f" "k" "al" "pw" none "bar.aab" "-signed.apk").1 = "bar.aab" :=
  replace_first_occurrence_only "dir/a" "/b.apk" "bar.aab" "/z" "/s" "f" "k" "al" "pw" none
    (by decide) (by decide)

/-- C2 as stated fails on the code: with keyPassword present but equal to
the empty string, the apksigner argument list contains neither the
`--key-pass` flag nor the pair `--key-pass pass:<keyPassword>`. -/
theorem keypass_pair_missing_for_empty_present :
    ¬ (["--key-pass", "pass:" ++ ""] <:+:
        (signFile "/bt/apksigner" "foo-aligned.apk" "key.jks" "alias0" "pw" (some "")
          "foo.apk" "-signed.apk").2.args)
    ∧ "--key-pass" ∉ (signFile "/bt/apksigner" "foo-aligned.apk" "key.jks" "alias0" "pw"
        (some "") "foo.apk" "-signed.apk").2.args := by
  exact ⟨by decide, by decide⟩

/-- C2 (amended): when keyPassword is omitted, the apksigner sign
argument list is exactly the list without any `--key-pass` pair (the
pair is absent entirely, not passed as empty); when keyPassword is
present and non-empty, the list contains the adjacent pair
`--key-pass pass:<keyPassword>`. -/
theorem keypass_pair_iff_nonempty
    (signerPath fileToSign signingKeyFile keyAlias keyStorePassword : String)
    (keyPassword : String) (originalFile fileExtension : String)
    (hkp : keyPassword ≠ "") :
    (signFile signerPath fileToSign signingKeyFile keyAlias keyStorePassword none
        originalFile fileExtension).2.args
      = ["sign", "--ks", signingKeyFile, "--ks-key-alias", keyAlias,
         "--ks-pass", "pass:" ++ keyStorePassword,
         "--out", jsReplaceFirst originalFile ".apk" fileExtension, fileToSign]
    ∧ ["--key-pass", "pass:" ++ keyPassword] <:+:
        (signFile signerPath fileToSign signingKeyFile keyAlias keyStorePassword
          (some keyPassword) originalFile fileExtension).2.args := by
  have hkp' : keyPassword.isEmpty = false := by
    cases hb : keyPassword.isEmpty
    · rfl
    · exact absurd ((String.isEmpty_iff keyPassword).mp hb) hkp
  constructor
  · simp [signFile, jsTruthyStr]
  · refine ⟨["sign", "--ks", signingKeyFile, "--ks-key-alias", keyAlias,
      "--ks-pass", "pass:" ++ keyStorePassword, "--out",
      jsReplaceFirst originalFile ".apk" fileExtension], [fileToSign], ?_⟩
    simp [signFile, jsTruthyStr, hkp']

theorem keypass_pair_iff_nonempty_witness :
    (signFile "/bt/apksigner" "f-aligned.apk" "key.jks" "alias0" "pw" none "f.apk"
        "-signed.apk").2.args
      = ["sign", "--ks", "key.jks", "--ks-key-alias", "alias0",
         "--ks-pass", "pass:" ++ "pw",
         "--out", jsReplaceFirst "f.apk" ".apk" "-signed.apk", "f-aligned.apk"]
    ∧ ["--key-pass", "pass:" ++ "secret"] <:+:
        (signFile "/bt/apksigner" "f-aligned.apk" "key.jks" "alias0" "pw" (some "secret")
          "f.apk" "-signed.apk").2.args :=
  keypass_pair_iff_nonempty "/bt/apksigner" "f-aligned.apk" "key.jks" "alias0" "pw" "secret"
    "f.apk" "-signed.apk" (by decide)

/-- C5 as stated fails on the code: applying the `-aligned.apk`
derivation to its own output on `foo.apk` yields
`foo-aligned-aligned.apk`, not the same name again. -/
theorem derivation_not_idempotent_on_output :
    (alignApkFile (alignApkFile "foo.apk" "/z").1 "/z").1
      ≠ (alignApkFile "foo.apk" "/z").1 := by
  decide

/-- C5 (amended): the derived-filename map is deterministic — the aligned
and signed names depend only on the input name and the fixed extension,
so two runs on the same input name yield byte-identical names — and it is
idempotent on input names not containing `.apk`, where it is the
identity; on a name still containing `.apk` (such as its own output for
an `.apk` input) re-application appends the suffix again. -/
theorem derivation_deterministic_and_idempotent_without_apk
    (s zipAlign zipAlign' signerPath signerPath' fileToSign fileToSign'
      signingKeyFile signingKeyFile' keyAlias keyAlias'
      keyStorePassword keyStorePassword' fileExtension : String)
    (keyPassword keyPassword' : Option String) :
    ((alignApkFile s zipAlign).1 = (alignApkFile s zipAlign').1
      ∧ (signFile signerPath fileToSign signingKeyFile keyAlias keyStorePassword keyPassword
          s fileExtension).1
        = (signFile signerPath' fileToSign' signingKeyFile' keyAlias' keyStorePassword'
            keyPassword' s fileExtension).1)
    ∧ (¬ (apkPat <:+: s.data) →
        (alignApkFile (alignApkFile s zipAlign).1 zipAlign).1 = (alignApkFile s zipAlign).1
        ∧ (signFile signerPath fileToSign signingKeyFile keyAlias keyStorePassword keyPassword
            (signFile signerPath fileToSign signingKeyFile keyAlias keyStorePassword
              keyPassword s "-signed.apk").1 "-signed.apk").1
          = (signFile signerPath fileToSign signingKeyFile keyAlias keyStorePassword
              keyPassword s "-signed.apk").1) := by
  refine ⟨⟨rfl, rfl⟩, fun h => ⟨?_, ?_⟩⟩
  · have ha : jsReplaceFirst s ".apk" "-aligned.apk" = s :=
      jsReplaceFirst_no_apk s "-aligned.apk" h
    show jsReplaceFirst (jsReplaceFirst s ".apk" "-aligned.apk") ".apk" "-aligned.apk"
      = jsReplaceFirst s ".apk" "-aligned.apk"
    rw [ha]
    exact ha
  · have hs : jsReplaceFirst s ".apk" "-signed.apk" = s :=
      jsReplaceFirst_no_apk s "-signed.apk" h
    show jsReplaceFirst (jsReplaceFirst s ".apk" "-signed.apk") ".apk" "-signed.apk"
      = jsReplaceFirst s ".apk" "-signed.apk"
    rw [hs]
    exact hs

theorem derivation_deterministic_and_idempotent_without_apk_witness :
    ((alignApkFile "bar.aab" "/z").1 = (alignApkFile "bar.aab" "/w").1
      ∧ (signFile "/s" "f" "k" "al" "pw" none "bar.aab" "-signed.apk").1
        = (signFile "/s2" "f2" "k2" "al2" "pw2" (some "q") "bar.aab" "-signed.apk").1)
    ∧ ((alignApkFile (alignApkFile "bar.aab" "/z").1 "/z").1
        = (alignApkFile "bar.aab" "/z").1
      ∧ (signFile "/s" "f" "k" "al" "pw" none
          (signFile "/s" "f" "k" "al" "pw" none "bar.aab" "-signed.apk").1 "-signed.apk").1
        = (signFile "/s" "f" "k" "al" "pw" none "bar.aab" "-signed.apk").1) :=
  ⟨(derivation_deterministic_and_idempotent_without_apk "bar.aab" "/z" "/w" "/s" "/s2" "f"
      "f2" "k" "k2" "al" "al2" "pw" "pw2" "-signed.apk" none (some "q")).1,
   (derivation_deterministic_and_idempotent_without_apk "bar.aab" "/z" "/w" "/s" "/s2" "f"
      "f2" "k" "k2" "al" "al2" "pw" "pw2" "-signed.apk" none (some "q")).2 (by decide)⟩
